import Mathlib

/-!
Verification of the `dirq` directory-queue package (file `dirq.go`).

The filesystem is shallowly embedded as a two-level tree: the queue root
holds buckets (directories) and each bucket holds files with a name, a byte
content (`List Nat`) and a modification time (`Int`, nanoseconds).
Fallible syscalls are represented explicitly: a call either fails because
of the modelled state (e.g. `os.Link` to an existing name) or because of an
injected external fault (permission problems, disk errors, ...), which the
fault records below make explicit.  A hardlink is modelled as a snapshot
copy of content and mtime; this is adequate because no code path of the
package writes through a name after linking it.
-/

set_option autoImplicit false

namespace GoDirq

/-! ### Name generation (`generateName`, `generateDirName`) -/

/-- The hexadecimal digit character used by Go's `%x` verb (lowercase). -/
def hexDigit (n : Nat) : Char :=
  if n < 10 then Char.ofNat (48 + n) else Char.ofNat (87 + n)

/-- Hex digits of `n`, most significant first, with structural fuel.
Fuel 16 is exact for every value below `16 ^ 16 = 2 ^ 64`, which covers
every non-negative `int64` the Go code can pass. -/
def toHexAux : Nat → Nat → List Char
  | 0, _ => []
  | fuel + 1, n =>
    if n < 16 then [hexDigit n] else toHexAux fuel (n / 16) ++ [hexDigit (n % 16)]

/-- Hex digits of `n` (domain: `n < 2 ^ 64`). -/
def toHex (n : Nat) : List Char := toHexAux 16 n

/-- Go's `%0wx` verb for a non-negative integer: hex digits, left-padded
with `'0'` to a minimum width `w` (wider values keep all their digits). -/
def goHex (w n : Nat) : String :=
  ⟨List.replicate (w - (toHex n).length) '0' ++ toHex n⟩

/-- `generateName` from dirq.go:
`fmt.Sprintf("%08x%05x%01x", now.Unix(), now.Nanosecond()/1000, rand.Int()%0xF)`.
`rand.Int()` is non-negative, so `% 0xF` is `% 15` on naturals. -/
def generateName (sec nanos rnd : Nat) : String :=
  goHex 8 sec ++ goHex 5 (nanos / 1000) ++ goHex 1 (rnd % 15)

/-- `generateDirName` from dirq.go: `fmt.Sprintf("%08x", now.Unix())`. -/
def generateDirName (sec : Nat) : String :=
  goHex 8 sec

/-! ### The two name patterns -/

/-- A character of the class `[0-9a-f]`. -/
def isLowerHexChar (c : Char) : Bool :=
  (('0' ≤ c) && (c ≤ '9')) || (('a' ≤ c) && (c ≤ 'f'))

/-- `directoryRegex = ^[0-9a-f]{8}$`. -/
def matchDirRegex (s : String) : Bool :=
  (s.length == 8) && s.data.all isLowerHexChar

/-- `fileRegex = ^[0-9a-f]{14}$`. -/
def matchFileRegex (s : String) : Bool :=
  (s.length == 14) && s.data.all isLowerHexChar

/-- `lockSuffix = ".lck"`. -/
def lockSuffix : String := ".lck"

/-- `tempSuffix = ".tmp"`. -/
def tempSuffix : String := ".tmp"

/-- `strings.HasSuffix`. -/
def strHasSuffix (s suf : String) : Bool :=
  (decide (suf.data.length ≤ s.data.length)) &&
    (s.data.drop (s.data.length - suf.data.length) == suf.data)

/-! ### The filesystem model -/

/-- A regular file: name, raw byte content, modification time (ns). -/
structure FSFile where
  name : String
  content : List Nat
  mtime : Int
deriving DecidableEq

/-- A directory directly under the queue root (a bucket, or any foreign
subdirectory). -/
structure Bucket where
  name : String
  files : List FSFile
deriving DecidableEq

/-- The queue root: the directories under it, in enumeration order. -/
structure FS where
  buckets : List Bucket
deriving DecidableEq

/-- `Dirq` configuration record (dirq.go lines 35-40).  Durations are
`time.Duration`, i.e. nanoseconds in an `int64`. -/
structure Dirq where
  Path : String
  Umask : Nat
  MaxTempLife : Int
  MaxLockLife : Int
deriving DecidableEq

/-- `defaultUmask = 0022` (octal). -/
def defaultUmask : Nat := 0o022

/-- `defaultMaxTempLife = 300 * time.Second`. -/
def defaultMaxTempLife : Int := 300 * 1000000000

/-- `defaultMaxLockLife = 600 * time.Second`. -/
def defaultMaxLockLife : Int := 600 * 1000000000

/-- `New` (dirq.go lines 79-87): the struct literal sets only `Path` and
`Umask`; the two lifetimes keep Go's zero value. -/
def New (path : String) : Dirq :=
  { Path := path, Umask := defaultUmask, MaxTempLife := 0, MaxLockLife := 0 }

/-- The distinguishable error causes of the modelled syscalls. -/
inductive Err where
  | mkdirFail | openFail | writeFail | closeFail | linkFail | linkExists
  | unlinkFail | readFail | removeFail | notFound | done
deriving DecidableEq

/-- A message, as sent on the `Consume` channel: payload or error. -/
inductive Msg where
  | payload (data : List Nat)
  | error (e : Err)
deriving DecidableEq

/-! #### Primitive operations inside one bucket -/

/-- First file with the given name. -/
def findFileB (b : Bucket) (n : String) : Option FSFile :=
  b.files.find? (fun f => f.name == n)

/-- Does a file with the given name exist? -/
def fileExistsB (b : Bucket) (n : String) : Bool :=
  b.files.any (fun f => f.name == n)

/-- `os.Remove` of a name, applied to the listing. -/
def removeFileB (b : Bucket) (n : String) : Bucket :=
  { b with files := b.files.filter (fun f => !(f.name == n)) }

/-! #### Primitive operations on the whole tree -/

/-- Resolve the directory named `p` under the root. -/
def findBucket (fs : FS) (p : String) : Option Bucket :=
  fs.buckets.find? (fun b => b.name == p)

/-- Does a directory with the given name exist under the root? -/
def bucketExists (fs : FS) (p : String) : Bool :=
  (findBucket fs p).isSome

/-- Apply `g` to the directory named `p` (no-op when absent). -/
def mapBucket (fs : FS) (p : String) (g : Bucket → Bucket) : FS :=
  ⟨fs.buckets.map (fun b => if b.name == p then g b else b)⟩

/-- Does file `n` exist inside directory `p` (path resolution)? -/
def fileExists (fs : FS) (p n : String) : Bool :=
  match findBucket fs p with
  | none => false
  | some b => fileExistsB b n

/-- `createDir` (dirq.go lines 71-76): `MkdirAll`, "already exists" is
not an error. -/
def ensureDir (fs : FS) (p : String) : FS :=
  if bucketExists fs p then fs else ⟨fs.buckets ++ [⟨p, []⟩]⟩

/-- `os.OpenFile(file, O_WRONLY|O_CREATE, mode)`: creates an empty file
when the name is free; an existing file is left as is (no `O_TRUNC`). -/
def createFile (fs : FS) (p : String) (f : FSFile) : FS :=
  mapBucket fs p (fun b =>
    if fileExistsB b f.name then b else { b with files := b.files ++ [f] })

/-- `fd.Write(data)` on a freshly opened (offset 0) descriptor: overwrites
from the start, keeping any longer tail (there is no truncation), and
refreshes the mtime. -/
def writeFile (fs : FS) (p n : String) (data : List Nat) (now : Int) : FS :=
  mapBucket fs p (fun b =>
    { b with files := b.files.map (fun f =>
        if f.name == n then ⟨f.name, data ++ f.content.drop data.length, now⟩ else f) })

/-- `os.Link(oldname, newname)` within directory `p`: fails when the new
name exists or the old one is missing; otherwise the new name appears with
the same inode (content and mtime). -/
def linkFile (fs : FS) (p oldN newN : String) : FS × Option Err :=
  match findBucket fs p with
  | none => (fs, some .notFound)
  | some b =>
    if fileExistsB b newN then (fs, some .linkExists)
    else match findFileB b oldN with
      | none => (fs, some .notFound)
      | some f =>
        (mapBucket fs p (fun b0 => { b0 with files := b0.files ++ [⟨newN, f.content, f.mtime⟩] }),
         none)

/-- `os.Remove` of file `n` in directory `p`. -/
def removeFile (fs : FS) (p n : String) : FS :=
  mapBucket fs p (fun b => removeFileB b n)

/-! ### Producer (`addData`, `addPath`, `Produce`) -/

/-- Externally injected syscall failures during one `Produce` call.
`written` is how many bytes a failing `fd.Write` managed to store. -/
structure ProduceFaults where
  mkdirFail : Bool
  openFail : Bool
  writeFail : Bool
  written : Nat
  closeFail : Bool
  linkFail : Bool
  unlinkFail : Bool
deriving DecidableEq

/-- No injected failures. -/
def pfOk : ProduceFaults := ⟨false, false, false, 0, false, false, false⟩

/-- The clock and randomness one `Produce` call observes: `addData` reads
the time for the bucket name and the temp name, `addPath` reads it again
for the entry name.  `now` stamps the written file. -/
structure Clock where
  dirSec : Nat
  tmpSec : Nat
  tmpNanos : Nat
  tmpRnd : Nat
  entSec : Nat
  entNanos : Nat
  entRnd : Nat
  now : Int
deriving DecidableEq

/-- `addData` (dirq.go lines 121-139): create the bucket, open a fresh
temp file, write the payload, close.  Returns the state, the parent and
file names, and the error, mirroring Go's named results. -/
def addData (q : Dirq) (flt : ProduceFaults) (clk : Clock) (fs : FS) (data : List Nat) :
    FS × String × String × Option Err :=
  let parent := generateDirName clk.dirSec
  if flt.mkdirFail then (fs, parent, "", some .mkdirFail)
  else
    let fs1 := ensureDir fs parent
    let file := generateName clk.tmpSec clk.tmpNanos clk.tmpRnd ++ tempSuffix
    if flt.openFail then (fs1, parent, file, some .openFail)
    else
      let fs2 := createFile fs1 parent ⟨file, [], clk.now⟩
      if flt.writeFail then
        (writeFile fs2 parent file (data.take flt.written) clk.now, parent, file, some .writeFail)
      else
        let fs3 := writeFile fs2 parent file data clk.now
        if flt.closeFail then (fs3, parent, file, some .closeFail)
        else (fs3, parent, file, none)

/-- `addPath` (dirq.go lines 142-151): hardlink the temp file to a fresh
entry name, then unlink the temp path.  A failing unlink is returned as
the error of the whole call. -/
def addPath (flt : ProduceFaults) (clk : Clock) (fs : FS) (file parent : String) :
    FS × Option Err :=
  let name := generateName clk.entSec clk.entNanos clk.entRnd
  if flt.linkFail then (fs, some .linkFail)
  else
    match linkFile fs parent file name with
    | (fs1, some e) => (fs1, some e)
    | (fs1, none) =>
      if flt.unlinkFail then (fs1, some .unlinkFail)
      else (removeFile fs1 parent file, none)

/-- `Produce` (dirq.go lines 154-161). -/
def Produce (q : Dirq) (flt : ProduceFaults) (clk : Clock) (fs : FS) (data : List Nat) :
    FS × Option Err :=
  match addData q flt clk fs data with
  | (fs1, _, _, some e) => (fs1, some e)
  | (fs1, parent, file, none) => addPath flt clk fs1 file parent

/-! ### Consumer (`lock`, `remove`, `consumeWalkFunc`, `Consume`) -/

/-- Externally injected syscall failures during a consuming walk, keyed by
the visited entry name. -/
structure ConsumeFaults where
  openFail : String → Bool
  readFail : String → Bool
  rmFileFail : String → Bool
  rmLockFail : String → Bool

/-- No injected failures. -/
def cfOk : ConsumeFaults := ⟨fun _ => false, fun _ => false, fun _ => false, fun _ => false⟩

/-- `lock` (dirq.go lines 95-101): `os.Link(file, file+".lck")`. -/
def lock (b : Bucket) (file : String) : Bucket × Option Err :=
  match findFileB b file with
  | none => (b, some .notFound)
  | some f =>
    if fileExistsB b (file ++ lockSuffix) then (b, some .linkExists)
    else ({ b with files := b.files ++ [⟨file ++ lockSuffix, f.content, f.mtime⟩] }, none)

/-- `remove` (dirq.go lines 104-112): remove the file, then — only if that
succeeded — its lock. -/
def remove (flt : ConsumeFaults) (b : Bucket) (file : String) : Bucket × Option Err :=
  if flt.rmFileFail file then (b, some .removeFail)
  else if !(fileExistsB b file) then (b, some .notFound)
  else
    let b1 := removeFileB b file
    if flt.rmLockFail file then (b1, some .removeFail)
    else if !(fileExistsB b1 (file ++ lockSuffix)) then (b1, some .notFound)
    else (removeFileB b1 (file ++ lockSuffix), none)

/-- What the walk callback tells `filepath.Walk`. -/
inductive WalkRes where
  | ok
  | skipDir
  | err (e : Err)
deriving DecidableEq

/-- `consumeWalkFunc` (dirq.go lines 164-213), file case, for one visited
name inside a bucket.  `defer dirq.remove(file)` runs on every exit after
the lock step, with its error discarded.  Returns the bucket state, the
messages sent on the channel, and the callback result. -/
def consumeWalkFunc (flt : ConsumeFaults) (justOne : Bool) (b : Bucket) (file : String) :
    Bucket × List Msg × WalkRes :=
  if !(matchFileRegex file) then (b, [], .ok)
  else
    match lock b file with
    | (_, some e) => (b, [], .err e)
    | (b1, none) =>
      match findFileB b1 file with
      | none => ((remove flt b1 file).1, [], .err .openFail)
      | some f =>
        if flt.openFail file then ((remove flt b1 file).1, [], .err .openFail)
        else if flt.readFail file then ((remove flt b1 file).1, [], .err .readFail)
        else
          ((remove flt b1 file).1, [.payload f.content],
            if justOne then .err .done else .ok)

/-- The walk over the snapshot of names inside one matching bucket. -/
def consumeBucketFiles (flt : ConsumeFaults) : Bucket → List String → Bucket × List Msg × Option Err
  | b, [] => (b, [], none)
  | b, n :: rest =>
    match consumeWalkFunc flt false b n with
    | (b1, ms, .ok) =>
      match consumeBucketFiles flt b1 rest with
      | (b2, ms2, e) => (b2, ms ++ ms2, e)
    | (b1, ms, .skipDir) => (b1, ms, none)
    | (b1, ms, .err e) => (b1, ms, some e)

/-- The walk over the directories under the root: non-matching names are
pruned (`filepath.SkipDir`), an error aborts the whole walk. -/
def consumeBuckets (flt : ConsumeFaults) : List Bucket → List Bucket × List Msg × Option Err
  | [] => ([], [], none)
  | b :: rest =>
    if matchDirRegex b.name then
      match consumeBucketFiles flt b (b.files.map (fun f => f.name)) with
      | (b1, ms, some e) => (b1 :: rest, ms, some e)
      | (b1, ms, none) =>
        match consumeBuckets flt rest with
        | (rest1, ms2, e2) => (b1 :: rest1, ms ++ ms2, e2)
    else
      match consumeBuckets flt rest with
      | (rest1, ms, e) => (b :: rest1, ms, e)

/-- `Consume` (dirq.go lines 218-229): run the walk; a walk error is sent
as a final error message on the channel. -/
def Consume (flt : ConsumeFaults) (fs : FS) : FS × List Msg :=
  match consumeBuckets flt fs.buckets with
  | (bs, ms, some e) => (⟨bs⟩, ms ++ [Msg.error e])
  | (bs, ms, none) => (⟨bs⟩, ms)

/-! ### `Empty` (dirq.go lines 250-276) -/

/-- File scan of one bucket: `ErrDone` (here `false`) on the first name
matching the entry pattern. -/
def emptyWalkFiles : List FSFile → Bool
  | [] => true
  | f :: rest => if matchFileRegex f.name then false else emptyWalkFiles rest

/-- Directory scan: non-matching directories are pruned. -/
def emptyWalkBuckets : List Bucket → Bool
  | [] => true
  | b :: rest =>
    if matchDirRegex b.name then
      if emptyWalkFiles b.files then emptyWalkBuckets rest else false
    else emptyWalkBuckets rest

/-- `Empty`: the boolean result, and the (untouched) tree — the walk
callback calls no mutating operation. -/
def Empty (fs : FS) : Bool × FS :=
  (emptyWalkBuckets fs.buckets, fs)

/-! ### `Purge` (dirq.go lines 279-312) -/

/-- The per-file branch of the purge walk: temp files past `MaxTempLife`
and lock files past `MaxLockLife` (by mtime age) are removed; every other
file is kept. -/
def purgeFiles (q : Dirq) (now : Int) : List FSFile → List FSFile
  | [] => []
  | f :: rest =>
    if strHasSuffix f.name tempSuffix then
      if now - f.mtime > q.MaxTempLife then purgeFiles q now rest
      else f :: purgeFiles q now rest
    else if strHasSuffix f.name lockSuffix then
      if now - f.mtime > q.MaxLockLife then purgeFiles q now rest
      else f :: purgeFiles q now rest
    else f :: purgeFiles q now rest

/-- The directory walk of `Purge`: each directory is first removed if
empty (`SkipDir`); "directory not empty" continues into its files. -/
def purgeBuckets (q : Dirq) (now : Int) : List Bucket → List Bucket
  | [] => []
  | b :: rest =>
    if b.files.isEmpty then purgeBuckets q now rest
    else ⟨b.name, purgeFiles q now b.files⟩ :: purgeBuckets q now rest

/-- `Purge`. -/
def Purge (q : Dirq) (now : Int) (fs : FS) : FS :=
  ⟨purgeBuckets q now fs.buckets⟩

/-- The spec's statement of the purge file rules, written from §4.4 of the
specification: keep a file unless it is a temp file past `maxTempLife` or
a lock file past `maxLockLife`.  Compared against `purgeFiles` below. -/
def keepFile (q : Dirq) (now : Int) (f : FSFile) : Bool :=
  if strHasSuffix f.name tempSuffix then !(now - f.mtime > q.MaxTempLife)
  else if strHasSuffix f.name lockSuffix then !(now - f.mtime > q.MaxLockLife)
  else true

/-! ### Lemmas about names and patterns -/

theorem hexDigit_lower_hex : ∀ m, m < 16 → isLowerHexChar (hexDigit m) = true := by
  decide

theorem toHexAux_all_hex (fuel : Nat) : ∀ n, ∀ c ∈ toHexAux fuel n, isLowerHexChar c = true := by
  induction fuel with
  | zero => intro n c hc; simp [toHexAux] at hc
  | succ fuel ih =>
    intro n c hc
    by_cases h : n < 16
    · simp [toHexAux, h] at hc
      subst hc
      exact hexDigit_lower_hex n h
    · simp [toHexAux, h] at hc
      rcases hc with hc | hc
      · exact ih (n / 16) c hc
      · subst hc
        exact hexDigit_lower_hex (n % 16) (Nat.mod_lt _ (by omega))

theorem toHexAux_length_le (fuel : Nat) :
    ∀ w n, n < 16 ^ w → w ≤ fuel → 0 < w → (toHexAux fuel n).length ≤ w := by
  induction fuel with
  | zero => intro w n _ hw hw0; omega
  | succ fuel ih =>
    intro w n hn hw hw0
    by_cases h : n < 16
    · simp [toHexAux, h]
      omega
    · have hw2 : 2 ≤ w := by
        by_contra hlt
        have : w = 1 := by omega
        subst this
        simp [pow_one] at hn
        omega
      have hdiv : n / 16 < 16 ^ (w - 1) := by
        have h16 : 16 ^ w = 16 ^ (w - 1) * 16 := by
          have : w - 1 + 1 = w := by omega
          calc 16 ^ w = 16 ^ (w - 1 + 1) := by rw [this]
            _ = 16 ^ (w - 1) * 16 := by rw [pow_succ]
        apply Nat.div_lt_of_lt_mul
        omega
      have := ih (w - 1) (n / 16) hdiv (by omega) (by omega)
      simp [toHexAux, h]
      omega

theorem toHex_length_le {w n : Nat} (hn : n < 16 ^ w) (hw : 0 < w) (hw16 : w ≤ 16) :
    (toHex n).length ≤ w :=
  toHexAux_length_le 16 w n hn hw16 hw

theorem toHex_all_hex (n : Nat) : ∀ c ∈ toHex n, isLowerHexChar c = true :=
  toHexAux_all_hex 16 n

/-- `%0wx` produces exactly `w` characters when the value fits in `w` digits. -/
theorem goHex_length {w n : Nat} (hn : n < 16 ^ w) (hw : 0 < w) (hw16 : w ≤ 16) :
    (goHex w n).data.length = w := by
  have h := toHex_length_le hn hw hw16
  simp [goHex]
  omega

theorem goHex_all_hex (w n : Nat) : ∀ c ∈ (goHex w n).data, isLowerHexChar c = true := by
  intro c hc
  simp [goHex] at hc
  rcases hc with hc | hc
  · rw [hc.2]; decide
  · exact toHex_all_hex n c hc

theorem data_append (s t : String) : (s ++ t).data = s.data ++ t.data := rfl

theorem length_eq_data (s : String) : s.length = s.data.length := rfl

/-- For clock values in the `int32`-era range and valid nanoseconds, an
entry name matches `^[0-9a-f]{14}$`. -/
theorem generateName_matches {sec nanos : Nat} (rnd : Nat)
    (hs : sec < 16 ^ 8) (hn : nanos < 1000000000) :
    matchFileRegex (generateName sec nanos rnd) = true := by
  have hsub : nanos / 1000 < 16 ^ 5 := by
    norm_num
    omega
  have hrnd : rnd % 15 < 16 ^ 1 := by
    rw [pow_one]
    omega
  have l1 := goHex_length (w := 8) hs (by omega) (by omega)
  have l2 := goHex_length (w := 5) hsub (by omega) (by omega)
  have l3 := goHex_length (w := 1) hrnd (by omega) (by omega)
  simp only [matchFileRegex, generateName, data_append, length_eq_data,
    Bool.and_eq_true, beq_iff_eq, List.all_eq_true]
  constructor
  · simp [List.length_append, l1, l2, l3]
  · intro c hc
    simp only [List.mem_append] at hc
    rcases hc with (hc | hc) | hc
    · exact goHex_all_hex 8 sec c hc
    · exact goHex_all_hex 5 (nanos / 1000) c hc
    · exact goHex_all_hex 1 (rnd % 15) c hc

/-- For clock values in the `int32`-era range, a bucket name matches
`^[0-9a-f]{8}$`. -/
theorem generateDirName_matches {sec : Nat} (hs : sec < 16 ^ 8) :
    matchDirRegex (generateDirName sec) = true := by
  have l1 := goHex_length (w := 8) hs (by omega) (by omega)
  simp only [matchDirRegex, generateDirName, length_eq_data,
    Bool.and_eq_true, beq_iff_eq, List.all_eq_true]
  constructor
  · simp [l1]
  · intro c hc
    exact goHex_all_hex 8 sec c hc

/-- A temp-suffixed name never matches the entry pattern: `'p'` is not a
hex character. -/
theorem matchFileRegex_append_temp (s : String) :
    matchFileRegex (s ++ tempSuffix) = false := by
  by_contra hb
  rw [Bool.not_eq_false] at hb
  simp only [matchFileRegex, Bool.and_eq_true, List.all_eq_true] at hb
  have hp : isLowerHexChar 'p' = true := by
    apply hb.2
    rw [data_append]
    simp [tempSuffix]
  exact absurd hp (by decide)

/-- A lock-suffixed name never matches the entry pattern: `'k'` is not a
hex character. -/
theorem matchFileRegex_append_lock (s : String) :
    matchFileRegex (s ++ lockSuffix) = false := by
  by_contra hb
  rw [Bool.not_eq_false] at hb
  simp only [matchFileRegex, Bool.and_eq_true, List.all_eq_true] at hb
  have hp : isLowerHexChar 'k' = true := by
    apply hb.2
    rw [data_append]
    simp [lockSuffix]
  exact absurd hp (by decide)

theorem data_length_append (s t : String) :
    (s ++ t).data.length = s.data.length + t.data.length := by
  rw [data_append, List.length_append]

/-- Appending a (non-empty) suffix changes a string. -/
theorem ne_append_lock (s : String) : s ≠ s ++ lockSuffix := by
  intro h
  have := congrArg (fun t => t.data.length) h
  simp only [data_length_append] at this
  simp [lockSuffix] at this

/-- An entry name differs from any temp-suffixed name. -/
theorem entry_ne_temp {e : String} (t : String) (he : matchFileRegex e = true) :
    e ≠ t ++ tempSuffix := by
  intro h
  rw [h, matchFileRegex_append_temp] at he
  exact Bool.false_ne_true he

/-- An entry name differs from any lock-suffixed name. -/
theorem entry_ne_lock {e : String} (t : String) (he : matchFileRegex e = true) :
    e ≠ t ++ lockSuffix := by
  intro h
  rw [h, matchFileRegex_append_lock] at he
  exact Bool.false_ne_true he

/-- A name ending in `".lck"` does not end in `".tmp"`. -/
theorem lck_not_tmp {s : String} (h : strHasSuffix s lockSuffix = true) :
    strHasSuffix s tempSuffix = false := by
  simp only [strHasSuffix, Bool.and_eq_true, decide_eq_true_eq, beq_iff_eq,
    lockSuffix, tempSuffix] at h ⊢
  rcases h with ⟨hlen, hdrop⟩
  by_contra hb
  rw [Bool.not_eq_false, Bool.and_eq_true, decide_eq_true_eq, beq_iff_eq] at hb
  rcases hb with ⟨_, hdrop2⟩
  have : (['.', 'l', 'c', 'k'] : List Char) = ['.', 't', 'm', 'p'] := by
    have e1 : (['.', 'l', 'c', 'k'] : List Char).length
        = (['.', 't', 'm', 'p'] : List Char).length := by decide
    rw [← hdrop, ← hdrop2, e1]
  simp at this

theorem mem_of_strHasSuffix {s suf : String} {c : Char}
    (h : strHasSuffix s suf = true) (hc : c ∈ suf.data) : c ∈ s.data := by
  simp only [strHasSuffix, Bool.and_eq_true, decide_eq_true_eq, beq_iff_eq] at h
  rcases h with ⟨_, hdrop⟩
  have : c ∈ s.data.drop (s.data.length - suf.data.length) := by rw [hdrop]; exact hc
  exact List.drop_subset _ _ this

/-- An entry-pattern name has no `".tmp"` suffix. -/
theorem matchFileRegex_no_temp {s : String} (h : matchFileRegex s = true) :
    strHasSuffix s tempSuffix = false := by
  by_contra hb
  rw [Bool.not_eq_false] at hb
  have hp : 'p' ∈ s.data := mem_of_strHasSuffix hb (by simp [tempSuffix])
  simp only [matchFileRegex, Bool.and_eq_true, List.all_eq_true] at h
  exact absurd (h.2 'p' hp) (by decide)

/-- An entry-pattern name has no `".lck"` suffix. -/
theorem matchFileRegex_no_lock {s : String} (h : matchFileRegex s = true) :
    strHasSuffix s lockSuffix = false := by
  by_contra hb
  rw [Bool.not_eq_false] at hb
  have hp : 'k' ∈ s.data := mem_of_strHasSuffix hb (by simp [lockSuffix])
  simp only [matchFileRegex, Bool.and_eq_true, List.all_eq_true] at h
  exact absurd (h.2 'k' hp) (by decide)

/-- Every character of a generated entry name is a lowercase hex digit,
whatever the clock values. -/
theorem generateName_all_hex (s n r : Nat) :
    ∀ c ∈ (generateName s n r).data, isLowerHexChar c = true := by
  intro c hc
  simp only [generateName, data_append, List.mem_append] at hc
  rcases hc with (hc | hc) | hc
  · exact goHex_all_hex 8 s c hc
  · exact goHex_all_hex 5 (n / 1000) c hc
  · exact goHex_all_hex 1 (r % 15) c hc

/-- A generated entry name is never a temp-suffixed name. -/
theorem generateName_ne_temp (s n r : Nat) (t : String) :
    generateName s n r ≠ t ++ tempSuffix := by
  intro h
  have hp : 'p' ∈ (generateName s n r).data := by
    rw [h, data_append]
    simp [tempSuffix]
  exact absurd (generateName_all_hex s n r 'p' hp) (by decide)

/-! ### Lemmas about the filesystem primitives -/

theorem findBucket_mapBucket (fs : FS) (p₀ p : String) (g : Bucket → Bucket)
    (hname : ∀ b, (g b).name = b.name) :
    findBucket (mapBucket fs p₀ g) p
      = (findBucket fs p).map (fun b => if b.name == p₀ then g b else b) := by
  unfold findBucket mapBucket
  rw [List.find?_map]
  have : ((fun b : Bucket => b.name == p) ∘ fun b => if b.name == p₀ then g b else b)
      = (fun b : Bucket => b.name == p) := by
    funext b
    by_cases h : b.name = p₀
    · simp [h, hname]
    · simp [h]
  rw [this]

theorem fileExists_mapBucket (fs : FS) (p₀ p n : String) (g : Bucket → Bucket)
    (hname : ∀ b, (g b).name = b.name)
    (hex : ∀ b, fileExistsB (g b) n = fileExistsB b n) :
    fileExists (mapBucket fs p₀ g) p n = fileExists fs p n := by
  unfold fileExists
  rw [findBucket_mapBucket fs p₀ p g hname]
  cases findBucket fs p with
  | none => rfl
  | some b =>
    by_cases h : b.name = p₀
    · simp [h, hex]
    · simp [h]

theorem fileExistsB_append (b : Bucket) (f0 : FSFile) (n : String) :
    fileExistsB ⟨b.name, b.files ++ [f0]⟩ n = (fileExistsB b n || (f0.name == n)) := by
  simp [fileExistsB, List.any_append]

theorem fileExistsB_append_ne (b : Bucket) (f0 : FSFile) (n : String) (h : f0.name ≠ n) :
    fileExistsB ⟨b.name, b.files ++ [f0]⟩ n = fileExistsB b n := by
  rw [fileExistsB_append]
  simp [beq_eq_false_iff_ne.mpr h]

theorem fileExists_ensureDir (fs : FS) (p₀ p n : String) :
    fileExists (ensureDir fs p₀) p n = fileExists fs p n := by
  unfold ensureDir
  by_cases h : bucketExists fs p₀
  · simp [h]
  · simp only [h, if_false, Bool.false_eq_true]
    unfold fileExists findBucket
    rw [List.find?_append]
    cases hf : fs.buckets.find? (fun b => b.name == p) with
    | some b => simp [Option.or]
    | none =>
      simp only [Option.or]
      by_cases hp : (p₀ : String) == p
      · rw [List.find?_cons_of_pos _ (by simpa using hp)]
        simp [fileExistsB]
      · rw [List.find?_cons_of_neg _ (by simpa using hp)]
        simp [List.find?_nil]

theorem bucketExists_ensureDir_self (fs : FS) (p : String) :
    bucketExists (ensureDir fs p) p = true := by
  unfold ensureDir
  by_cases h : bucketExists fs p
  · simpa [h]
  · simp only [h, if_false, Bool.false_eq_true]
    unfold bucketExists findBucket at h ⊢
    rw [List.find?_append]
    cases hf : fs.buckets.find? (fun b => b.name == p) with
    | some b => exact absurd (by rw [hf]; rfl) h
    | none =>
      rw [List.find?_cons_of_pos _ (by simp)]
      simp [Option.or]

theorem fileExists_createFile_ne (fs : FS) (p₀ p n : String) (f0 : FSFile)
    (h : f0.name ≠ n) :
    fileExists (createFile fs p₀ f0) p n = fileExists fs p n := by
  apply fileExists_mapBucket
  · intro b
    by_cases hb : fileExistsB b f0.name <;> simp [hb]
  · intro b
    by_cases hb : fileExistsB b f0.name
    · simp [hb]
    · simp only [hb, if_false, Bool.false_eq_true]
      exact fileExistsB_append_ne b f0 n h

theorem fileExists_mapBucket_found (fs : FS) (p₀ : String) (b : Bucket) (g : Bucket → Bucket)
    (hf : findBucket fs p₀ = some b) (hname : ∀ b, (g b).name = b.name) (n : String) :
    fileExists (mapBucket fs p₀ g) p₀ n = fileExistsB (g b) n := by
  unfold fileExists
  rw [findBucket_mapBucket fs p₀ p₀ g hname, hf]
  have hf2 : fs.buckets.find? (fun x => x.name == p₀) = some b := hf
  have hp0 := List.find?_some hf2
  have hp : (b.name == p₀) = true := hp0
  have hpe : b.name = p₀ := by simpa using hp
  simp [hpe]

theorem fileExists_createFile_self (fs : FS) (p₀ : String) (f0 : FSFile)
    (hb : bucketExists fs p₀ = true) :
    fileExists (createFile fs p₀ f0) p₀ f0.name = true := by
  cases hf : findBucket fs p₀ with
  | none => unfold bucketExists at hb; rw [hf] at hb; simp at hb
  | some b =>
    unfold createFile
    rw [fileExists_mapBucket_found fs p₀ b _ hf
      (by intro b0; by_cases hx : fileExistsB b0 f0.name <;> simp [hx]) f0.name]
    by_cases hx : fileExistsB b f0.name
    · simpa [hx]
    · simp only [hx, Bool.false_eq_true, if_false]
      rw [fileExistsB_append]
      simp

theorem any_name_map_preserve (l : List FSFile) (w : FSFile → FSFile)
    (hw : ∀ f, (w f).name = f.name) (n : String) :
    (l.map w).any (fun f => f.name == n) = l.any (fun f => f.name == n) := by
  induction l with
  | nil => rfl
  | cons f rest ih => simp [hw, ih]

theorem fileExists_writeFile (fs : FS) (p₀ p n n₀ : String) (data : List Nat) (now : Int) :
    fileExists (writeFile fs p₀ n₀ data now) p n = fileExists fs p n := by
  apply fileExists_mapBucket
  · intro b; rfl
  · intro b
    show (b.files.map _).any _ = _
    apply any_name_map_preserve
    intro f
    by_cases hf : f.name == n₀ <;> simp [hf]

theorem any_name_filter_ne (l : List FSFile) (n₀ n : String) (h : n₀ ≠ n) :
    (l.filter (fun f => !(f.name == n₀))).any (fun f => f.name == n)
      = l.any (fun f => f.name == n) := by
  induction l with
  | nil => rfl
  | cons f rest ih =>
    by_cases hf : f.name == n₀
    · have hfn : (f.name == n) = false := by
        rw [beq_iff_eq] at hf
        rw [beq_eq_false_iff_ne, hf]
        exact h
      simp [List.filter_cons, hf, hfn, ih]
    · simp [List.filter_cons, hf, ih]

theorem fileExists_removeFile_ne (fs : FS) (p₀ p n₀ n : String) (h : n₀ ≠ n) :
    fileExists (removeFile fs p₀ n₀) p n = fileExists fs p n := by
  apply fileExists_mapBucket
  · intro b; rfl
  · intro b
    show (b.files.filter _).any _ = _
    exact any_name_filter_ne b.files n₀ n h

theorem fileExists_linkFile_ne (fs : FS) (p₀ oldN newN p n : String) (h : newN ≠ n) :
    fileExists (linkFile fs p₀ oldN newN).1 p n = fileExists fs p n := by
  unfold linkFile
  cases hf : findBucket fs p₀ with
  | none => rfl
  | some b =>
    by_cases hex : fileExistsB b newN
    · simp [hex]
    · simp only [hex, if_false, Bool.false_eq_true]
      cases hold : findFileB b oldN with
      | none => rfl
      | some f =>
        apply fileExists_mapBucket
        · intro b0; rfl
        · intro b0
          exact fileExistsB_append_ne b0 ⟨newN, f.content, f.mtime⟩ n h

theorem fileExists_linkFile_self (fs : FS) (p₀ oldN newN : String)
    (h : (linkFile fs p₀ oldN newN).2 = none) :
    fileExists (linkFile fs p₀ oldN newN).1 p₀ newN = true := by
  unfold linkFile at h ⊢
  cases hf : findBucket fs p₀ with
  | none => rw [hf] at h; simp at h
  | some b =>
    rw [hf] at h
    by_cases hex : fileExistsB b newN
    · simp [hex] at h
    · simp only [hex, if_false, Bool.false_eq_true] at h ⊢
      cases hold : findFileB b oldN with
      | none => rw [hold] at h; simp at h
      | some f =>
        dsimp only
        rw [fileExists_mapBucket_found fs p₀ b
          (fun b0 => { b0 with files := b0.files ++ [⟨newN, f.content, f.mtime⟩] }) hf
          (fun b0 => rfl) newN]
        rw [fileExistsB_append]
        simp

/-! ### Lemmas about `Purge` and `Empty` -/

theorem purgeFiles_eq_filter (q : Dirq) (now : Int) (l : List FSFile) :
    purgeFiles q now l = l.filter (keepFile q now) := by
  induction l with
  | nil => rfl
  | cons f rest ih =>
    by_cases h1 : strHasSuffix f.name tempSuffix
    · by_cases h2 : now - f.mtime > q.MaxTempLife
      · simp [purgeFiles, keepFile, h1, h2, List.filter_cons, ih]
      · simp [purgeFiles, keepFile, h1, h2, List.filter_cons, ih]
    · by_cases h3 : strHasSuffix f.name lockSuffix
      · by_cases h2 : now - f.mtime > q.MaxLockLife
        · simp [purgeFiles, keepFile, h1, h3, h2, List.filter_cons, ih]
        · simp [purgeFiles, keepFile, h1, h3, h2, List.filter_cons, ih]
      · simp [purgeFiles, keepFile, h1, h3, List.filter_cons, ih]

theorem emptyWalkFiles_iff (l : List FSFile) :
    emptyWalkFiles l = true ↔ ∀ f ∈ l, matchFileRegex f.name = false := by
  induction l with
  | nil => simp [emptyWalkFiles]
  | cons f rest ih =>
    by_cases h : matchFileRegex f.name
    · simp [emptyWalkFiles, h, List.forall_mem_cons]
    · have hf : matchFileRegex f.name = false := by simpa using h
      simp [emptyWalkFiles, hf, ih, List.forall_mem_cons]

theorem emptyWalkBuckets_iff (l : List Bucket) :
    emptyWalkBuckets l = true ↔
      ∀ b ∈ l, matchDirRegex b.name = true →
        ∀ f ∈ b.files, matchFileRegex f.name = false := by
  induction l with
  | nil => simp [emptyWalkBuckets]
  | cons b rest ih =>
    by_cases hd : matchDirRegex b.name
    · by_cases he : emptyWalkFiles b.files
      · have hall := (emptyWalkFiles_iff b.files).mp he
        have hL : emptyWalkBuckets (b :: rest) = emptyWalkBuckets rest := by
          simp [emptyWalkBuckets, hd, he]
        rw [hL, ih, List.forall_mem_cons]
        constructor
        · intro h2
          exact ⟨fun _ => hall, h2⟩
        · intro h2
          exact h2.2
      · have hf : emptyWalkFiles b.files = false := by simpa using he
        have hnall : ¬ ∀ f ∈ b.files, matchFileRegex f.name = false :=
          fun hall => he ((emptyWalkFiles_iff b.files).mpr hall)
        simp [emptyWalkBuckets, hd, hf, List.forall_mem_cons, hnall]
    · have hdf : matchDirRegex b.name = false := by simpa using hd
      simp [emptyWalkBuckets, hdf, ih, List.forall_mem_cons]

/-! ### Claims -/

/-- **C6**: during a `Purge` walk, a still-present (non-empty) bucket keeps
exactly the files the spec's rules keep: a temp file older than
`MaxTempLife` is deleted, a lock file older than `MaxLockLife` is deleted,
every other file is untouched; an empty bucket is removed; and no file
matching the entry pattern is ever deleted. -/
theorem purge_file_rules (q : Dirq) (now : Int) (fs : FS) :
    Purge q now fs
      = ⟨fs.buckets.filterMap (fun b =>
          if b.files.isEmpty then none
          else some ⟨b.name, b.files.filter (keepFile q now)⟩)⟩
    ∧ (∀ f : FSFile, matchFileRegex f.name = true → keepFile q now f = true) := by
  constructor
  · unfold Purge
    rcases fs with ⟨bs⟩
    congr 1
    induction bs with
    | nil => rfl
    | cons b rest ih =>
      by_cases hb : b.files = []
      · simp [purgeBuckets, List.isEmpty_eq_true, hb, ih, List.filterMap_cons]
      · simp [purgeBuckets, List.isEmpty_eq_true, hb, ih, List.filterMap_cons,
          purgeFiles_eq_filter]
  · intro f hf
    unfold keepFile
    rw [matchFileRegex_no_temp hf, matchFileRegex_no_lock hf]
    simp

/-- Witness for C6 at a concrete input: an entry-pattern file is kept. -/
theorem purge_file_rules_witness :
    keepFile (New "q") 5 ⟨"00000000000000", [], 0⟩ = true :=
  (purge_file_rules (New "q") 5 ⟨[]⟩).2 ⟨"00000000000000", [], 0⟩ (by decide)

/-- **C7**: `Empty` mutates nothing, reports `false` exactly when some
bucket-pattern directory holds an entry-pattern file, and `true` only when
a full walk finds none. -/
theorem empty_reports_without_mutation (fs : FS) :
    (Empty fs).2 = fs ∧
      ((Empty fs).1 = true ↔
        ∀ b ∈ fs.buckets, matchDirRegex b.name = true →
          ∀ f ∈ b.files, matchFileRegex f.name = false) :=
  ⟨rfl, emptyWalkBuckets_iff fs.buckets⟩

/-- Witness for C7 on a fresh root. -/
theorem empty_reports_without_mutation_witness :
    (Empty (⟨[]⟩ : FS)).1 = true ∧ (Empty (⟨[]⟩ : FS)).2 = (⟨[]⟩ : FS) :=
  ⟨(empty_reports_without_mutation ⟨[]⟩).2.mpr (by simp),
   (empty_reports_without_mutation ⟨[]⟩).1⟩

/-- **C8** counterexample: at Unix time `2 ^ 32` (year 2106) the bucket
name is nine characters and the entry name fifteen, so neither matches its
pattern — the claim's "for every possible time" fails. -/
theorem generateDirName_overflow_pattern_fails :
    matchDirRegex (generateDirName 4294967296) = false ∧
    (generateDirName 4294967296).length = 9 ∧
    matchFileRegex (generateName 4294967296 0 0) = false ∧
    (generateName 4294967296 0 0).length = 15 := by
  decide

/-- **C8** amended: for every time whose Unix-seconds value fits in eight
hex digits (i.e. up to `0xffffffff`, year 2106) and valid nanoseconds, and
every random value, the bucket name is exactly 8 lowercase hex characters
matching `^[0-9a-f]{8}$` and the entry name exactly 14 matching
`^[0-9a-f]{14}$`. -/
theorem generated_names_match_patterns (dsec sec nanos rnd : Nat)
    (hd : dsec ≤ 4294967295) (hs : sec ≤ 4294967295) (hn : nanos < 1000000000) :
    matchDirRegex (generateDirName dsec) = true ∧
    (generateDirName dsec).length = 8 ∧
    matchFileRegex (generateName sec nanos rnd) = true ∧
    (generateName sec nanos rnd).length = 14 := by
  have hd8 : dsec < 16 ^ 8 := by norm_num; omega
  have hs8 : sec < 16 ^ 8 := by norm_num; omega
  have h1 := generateDirName_matches hd8
  have h2 := generateName_matches rnd hs8 hn
  refine ⟨h1, ?_, h2, ?_⟩
  · simp only [matchDirRegex, Bool.and_eq_true, beq_iff_eq] at h1
    exact h1.1
  · simp only [matchFileRegex, Bool.and_eq_true, beq_iff_eq] at h2
    exact h2.1

/-- Witness for the amended C8 at the epoch. -/
theorem generated_names_match_patterns_witness :
    matchDirRegex (generateDirName 0) = true ∧ (generateDirName 0).length = 8 ∧
    matchFileRegex (generateName 0 0 0) = true ∧ (generateName 0 0 0).length = 14 :=
  generated_names_match_patterns 0 0 0 0 (by norm_num) (by norm_num) (by norm_num)

/-- **C9**: a handle built by `New` has both lifetimes zero — the declared
defaults of 300 s and 600 s are never applied to it — so `Purge` on such a
handle deletes every temp- or lock-suffixed file of any positive age. -/
theorem new_handle_zero_lifetimes_purge (p : String) :
    (New p).MaxTempLife = 0 ∧ (New p).MaxLockLife = 0 ∧
    defaultMaxTempLife = 300 * 1000000000 ∧ defaultMaxLockLife = 600 * 1000000000 ∧
    (New p).MaxTempLife ≠ defaultMaxTempLife ∧ (New p).MaxLockLife ≠ defaultMaxLockLife ∧
    (∀ (now : Int) (f : FSFile) (l : List FSFile),
      strHasSuffix f.name tempSuffix = true → 0 < now - f.mtime →
      f ∉ purgeFiles (New p) now l) ∧
    (∀ (now : Int) (f : FSFile) (l : List FSFile),
      strHasSuffix f.name lockSuffix = true → 0 < now - f.mtime →
      f ∉ purgeFiles (New p) now l) := by
  refine ⟨rfl, rfl, rfl, rfl, ?_, ?_, ?_, ?_⟩
  · intro h
    simp [New, defaultMaxTempLife] at h
  · intro h
    simp [New, defaultMaxLockLife] at h
  · intro now f l hsuf hage hin
    rw [purgeFiles_eq_filter] at hin
    have hk := (List.mem_filter.mp hin).2
    simp [keepFile, hsuf, New] at hk
    omega
  · intro now f l hsuf hage hin
    rw [purgeFiles_eq_filter] at hin
    have hk := (List.mem_filter.mp hin).2
    simp [keepFile, hsuf, lck_not_tmp hsuf, New] at hk
    omega

/-- Witness for C9: freshly created temp and lock files (age 5 ns) are
already purged by a `New` handle. -/
theorem new_handle_zero_lifetimes_purge_witness :
    (⟨"a.tmp", [], 0⟩ : FSFile) ∉ purgeFiles (New "q") 5 [⟨"a.tmp", [], 0⟩] ∧
    (⟨"b.lck", [], 0⟩ : FSFile) ∉ purgeFiles (New "q") 5 [⟨"b.lck", [], 0⟩] :=
  ⟨(new_handle_zero_lifetimes_purge "q").2.2.2.2.2.2.1 5 ⟨"a.tmp", [], 0⟩
      [⟨"a.tmp", [], 0⟩] (by decide) (by decide),
   (new_handle_zero_lifetimes_purge "q").2.2.2.2.2.2.2 5 ⟨"b.lck", [], 0⟩
      [⟨"b.lck", [], 0⟩] (by decide) (by decide)⟩

/-- **C2** (code bug): a consuming walk that meets an entry whose lock
name already exists does not skip it silently — `consumeWalkFunc` returns
the link error, the walk aborts before the next entry, and the error is
delivered to the caller.  Here the second entry is never consumed. -/
theorem consume_existing_lock_aborts_walk :
    Consume cfOk ⟨[⟨"00000000",
      [⟨"00000000000000", [1], 0⟩,
       ⟨"00000000000000.lck", [1], 0⟩,
       ⟨"00000000000001", [2], 0⟩]⟩]⟩
    = (⟨[⟨"00000000",
      [⟨"00000000000000", [1], 0⟩,
       ⟨"00000000000000.lck", [1], 0⟩,
       ⟨"00000000000001", [2], 0⟩]⟩]⟩,
      [Msg.error Err.linkExists]) := by
  decide

/-- `linkFile` never reports `unlinkFail`: its errors are `linkExists` or
`notFound`. -/
theorem linkFile_snd_ne_unlink (fs : FS) (p oldN newN : String) :
    (linkFile fs p oldN newN).2 ≠ some Err.unlinkFail := by
  unfold linkFile
  cases findBucket fs p with
  | none => simp
  | some b =>
    by_cases hex : fileExistsB b newN
    · simp [hex]
    · simp only [hex, Bool.false_eq_true, if_false]
      cases findFileB b oldN with
      | none => simp
      | some f => simp

/-- **C4** counterexample: with the publish link succeeding and only the
final unlink failing, `Produce` reports the failure to the caller — it
does not return success — even though the entry is already visible. -/
theorem produce_unlink_failure_returns_error :
    (Produce (New "p") ⟨false, false, false, 0, false, false, true⟩
        ⟨1, 5, 6, 7, 2, 3, 4, 100⟩ ⟨[]⟩ [9]).2 = some Err.unlinkFail ∧
    fileExists (Produce (New "p") ⟨false, false, false, 0, false, false, true⟩
        ⟨1, 5, 6, 7, 2, 3, 4, 100⟩ ⟨[]⟩ [9]).1
      (generateDirName 1) (generateName 2 3 4) = true := by
  decide

/-- **C4** amended: when the publish hardlink succeeds but the subsequent
unlink of the temp path fails, `Produce` returns that unlink error to the
caller; the entry is nevertheless already published and visible, and the
surviving temp file remains (as purge-collectible garbage). -/
theorem produce_unlink_failure_entry_already_visible
    (q : Dirq) (flt : ProduceFaults) (clk : Clock) (fs : FS) (data : List Nat) (fs' : FS)
    (h : Produce q flt clk fs data = (fs', some Err.unlinkFail)) :
    fileExists fs' (generateDirName clk.dirSec)
      (generateName clk.entSec clk.entNanos clk.entRnd) = true ∧
    fileExists fs' (generateDirName clk.dirSec)
      (generateName clk.tmpSec clk.tmpNanos clk.tmpRnd ++ tempSuffix) = true := by
  unfold Produce addData addPath at h
  by_cases h1 : flt.mkdirFail
  · simp [h1] at h
  by_cases h2 : flt.openFail
  · simp [h1, h2] at h
  by_cases h3 : flt.writeFail
  · simp [h1, h2, h3] at h
  by_cases h4 : flt.closeFail
  · simp [h1, h2, h3, h4] at h
  by_cases h5 : flt.linkFail
  · simp [h1, h2, h3, h4, h5] at h
  simp only [h1, h2, h3, h4, h5, Bool.false_eq_true, if_false] at h
  set parent := generateDirName clk.dirSec with hparent
  set tmpn := generateName clk.tmpSec clk.tmpNanos clk.tmpRnd ++ tempSuffix with htmp
  set ename := generateName clk.entSec clk.entNanos clk.entRnd with hename
  set fs3 := writeFile (createFile (ensureDir fs parent) parent ⟨tmpn, [], clk.now⟩)
      parent tmpn data clk.now with hfs3
  cases hlf : linkFile fs3 parent tmpn ename with
  | mk fs1 oe =>
    rw [hlf] at h
    cases oe with
    | some e =>
      simp only at h
      have he2 := congrArg Prod.snd h
      simp only at he2
      have : (linkFile fs3 parent tmpn ename).2 = some Err.unlinkFail := by
        rw [hlf, he2]
      exact absurd this (linkFile_snd_ne_unlink fs3 parent tmpn ename)
    | none =>
      by_cases h6 : flt.unlinkFail
      · simp only [h6, if_true] at h
        have hfs1 : fs1 = fs' := congrArg Prod.fst h
        have hsnd : (linkFile fs3 parent tmpn ename).2 = none := by rw [hlf]
        have hfst : (linkFile fs3 parent tmpn ename).1 = fs1 := by rw [hlf]
        have hbex : bucketExists (ensureDir fs parent) parent = true :=
          bucketExists_ensureDir_self fs parent
        have htmp3 : fileExists fs3 parent tmpn = true := by
          rw [hfs3, fileExists_writeFile]
          exact fileExists_createFile_self (ensureDir fs parent) parent ⟨tmpn, [], clk.now⟩ hbex
        have hne : ename ≠ tmpn :=
          generateName_ne_temp clk.entSec clk.entNanos clk.entRnd _
        constructor
        · rw [← hfs1, ← hfst]
          exact fileExists_linkFile_self fs3 parent tmpn ename hsnd
        · rw [← hfs1, ← hfst]
          rw [fileExists_linkFile_ne fs3 parent tmpn ename parent tmpn hne]
          exact htmp3
      · simp [h6] at h

/-- Witness for the amended C4 at a concrete input. -/
theorem produce_unlink_failure_entry_already_visible_witness :
    fileExists (⟨[⟨"00000001",
        [⟨"00000005000007.tmp", [9], 100⟩, ⟨"00000002000004", [9], 100⟩]⟩]⟩ : FS)
      (generateDirName 1) (generateName 2 3 4) = true ∧
    fileExists (⟨[⟨"00000001",
        [⟨"00000005000007.tmp", [9], 100⟩, ⟨"00000002000004", [9], 100⟩]⟩]⟩ : FS)
      (generateDirName 1) (generateName 5 6 7 ++ tempSuffix) = true :=
  produce_unlink_failure_entry_already_visible (New "p")
    ⟨false, false, false, 0, false, false, true⟩ ⟨1, 5, 6, 7, 2, 3, 4, 100⟩ ⟨[]⟩ [9]
    ⟨[⟨"00000001", [⟨"00000005000007.tmp", [9], 100⟩, ⟨"00000002000004", [9], 100⟩]⟩]⟩
    (by decide)

/-- **C5** counterexample: the winner's deferred cleanup fails (the entry
file cannot be removed), yet `Consume` delivers the payload and reports no
error at all — the failure is silently discarded, not surfaced, and both
the entry and its lock survive. -/
theorem consume_cleanup_failure_not_surfaced :
    Consume ⟨fun _ => false, fun _ => false, fun n => n == "00000000000000", fun _ => false⟩
        ⟨[⟨"00000000", [⟨"00000000000000", [7], 0⟩]⟩]⟩
      = (⟨[⟨"00000000", [⟨"00000000000000", [7], 0⟩,
            ⟨"00000000000000.lck", [7], 0⟩]⟩]⟩,
         [Msg.payload [7]]) := by
  decide

/-- **C5** amended: the winner reads the full payload, then the deferred
cleanup deletes the entry file and then the lock (a failed entry deletion
skips the lock deletion); but any failure of this cleanup is silently
discarded — the deferred `remove`'s error is never surfaced to the
caller. -/
theorem consume_cleanup_order_and_silent_discard
    (flt : ConsumeFaults) (bname ename : String) (content : List Nat) (mt : Int)
    (hb : matchDirRegex bname = true) (he : matchFileRegex ename = true)
    (ho : flt.openFail ename = false) (hr : flt.readFail ename = false) :
    (flt.rmFileFail ename = true →
      Consume flt ⟨[⟨bname, [⟨ename, content, mt⟩]⟩]⟩
        = (⟨[⟨bname, [⟨ename, content, mt⟩, ⟨ename ++ lockSuffix, content, mt⟩]⟩]⟩,
           [Msg.payload content])) ∧
    (flt.rmFileFail ename = false → flt.rmLockFail ename = true →
      Consume flt ⟨[⟨bname, [⟨ename, content, mt⟩]⟩]⟩
        = (⟨[⟨bname, [⟨ename ++ lockSuffix, content, mt⟩]⟩]⟩, [Msg.payload content])) ∧
    (flt.rmFileFail ename = false → flt.rmLockFail ename = false →
      Consume flt ⟨[⟨bname, [⟨ename, content, mt⟩]⟩]⟩
        = (⟨[⟨bname, []⟩]⟩, [Msg.payload content])) := by
  have hee : (ename == ename) = true := beq_self_eq_true ename
  have hel : (ename == ename ++ lockSuffix) = false :=
    beq_eq_false_iff_ne.mpr (ne_append_lock ename)
  have hle : (ename ++ lockSuffix == ename) = false :=
    beq_eq_false_iff_ne.mpr (Ne.symm (ne_append_lock ename))
  refine ⟨?_, ?_, ?_⟩
  · intro hf1
    simp [Consume, consumeBuckets, consumeBucketFiles, consumeWalkFunc, lock, remove,
      findFileB, fileExistsB, removeFileB, List.find?_cons, List.filter_cons,
      hb, he, hee, hel, hle, ho, hr, hf1]
  · intro hf1 hf2
    simp [Consume, consumeBuckets, consumeBucketFiles, consumeWalkFunc, lock, remove,
      findFileB, fileExistsB, removeFileB, List.find?_cons, List.filter_cons,
      hb, he, hee, hel, hle, ho, hr, hf1, hf2]
  · intro hf1 hf2
    simp [Consume, consumeBuckets, consumeBucketFiles, consumeWalkFunc, lock, remove,
      findFileB, fileExistsB, removeFileB, List.find?_cons, List.filter_cons,
      hb, he, hee, hel, hle, ho, hr, hf1, hf2]

/-- Witness for the amended C5 at a concrete input (lock removal fails:
the entry is already gone, the lock survives, no error is reported). -/
theorem consume_cleanup_order_and_silent_discard_witness :
    Consume ⟨fun _ => false, fun _ => false, fun _ => false, fun n => n == "00000000000000"⟩
        ⟨[⟨"00000000", [⟨"00000000000000", [7], 0⟩]⟩]⟩
      = (⟨[⟨"00000000", [⟨"00000000000000.lck", [7], 0⟩]⟩]⟩, [Msg.payload [7]]) :=
  ((consume_cleanup_order_and_silent_discard
      ⟨fun _ => false, fun _ => false, fun _ => false, fun n => n == "00000000000000"⟩
      "00000000" "00000000000000" [7] 0
      (by decide) (by decide) (by decide) (by decide)).2.1
    (by decide) (by decide))

/-- **C10**: once the claim (lock creation) has succeeded, a failing open
or read of the entry still runs the deferred cleanup — the entry file and
its lock are deleted — before the error propagates; the payload is never
delivered and the traversal aborts with that error. -/
theorem claimed_entry_read_failure_drops_payload
    (flt : ConsumeFaults) (bname ename : String) (content : List Nat) (mt : Int)
    (hb : matchDirRegex bname = true) (he : matchFileRegex ename = true)
    (hrm1 : flt.rmFileFail ename = false) (hrm2 : flt.rmLockFail ename = false) :
    (flt.openFail ename = true →
      Consume flt ⟨[⟨bname, [⟨ename, content, mt⟩]⟩]⟩
        = (⟨[⟨bname, []⟩]⟩, [Msg.error Err.openFail])) ∧
    (flt.openFail ename = false → flt.readFail ename = true →
      Consume flt ⟨[⟨bname, [⟨ename, content, mt⟩]⟩]⟩
        = (⟨[⟨bname, []⟩]⟩, [Msg.error Err.readFail])) := by
  have hee : (ename == ename) = true := beq_self_eq_true ename
  have hel : (ename == ename ++ lockSuffix) = false :=
    beq_eq_false_iff_ne.mpr (ne_append_lock ename)
  have hle : (ename ++ lockSuffix == ename) = false :=
    beq_eq_false_iff_ne.mpr (Ne.symm (ne_append_lock ename))
  refine ⟨?_, ?_⟩
  · intro hopen
    simp [Consume, consumeBuckets, consumeBucketFiles, consumeWalkFunc, lock, remove,
      findFileB, fileExistsB, removeFileB, List.find?_cons, List.filter_cons,
      hb, he, hee, hel, hle, hopen, hrm1, hrm2]
  · intro hopen hread
    simp [Consume, consumeBuckets, consumeBucketFiles, consumeWalkFunc, lock, remove,
      findFileB, fileExistsB, removeFileB, List.find?_cons, List.filter_cons,
      hb, he, hee, hel, hle, hopen, hread, hrm1, hrm2]

/-- Witness for C10 at a concrete input (open fails after the claim). -/
theorem claimed_entry_read_failure_drops_payload_witness :
    Consume ⟨fun n => n == "00000000000000", fun _ => false, fun _ => false, fun _ => false⟩
        ⟨[⟨"00000000", [⟨"00000000000000", [7], 0⟩]⟩]⟩
      = (⟨[⟨"00000000", []⟩]⟩, [Msg.error Err.openFail]) :=
  ((claimed_entry_read_failure_drops_payload
      ⟨fun n => n == "00000000000000", fun _ => false, fun _ => false, fun _ => false⟩
      "00000000" "00000000000000" [7] 0
      (by decide) (by decide) (by decide) (by decide)).1 (by decide))

/-- A failed `linkFile` leaves the tree unchanged. -/
theorem linkFile_fst_of_err (fs : FS) (p oldN newN : String) (e : Err)
    (h : (linkFile fs p oldN newN).2 = some e) :
    (linkFile fs p oldN newN).1 = fs := by
  unfold linkFile at h ⊢
  cases hf : findBucket fs p with
  | none => rfl
  | some b =>
    rw [hf] at h
    by_cases hex : fileExistsB b newN
    · simp [hex]
    · simp only [hex, Bool.false_eq_true, if_false] at h ⊢
      cases hold : findFileB b oldN with
      | none => rfl
      | some f => rw [hold] at h; simp at h

/-- A successful `linkFile` implies the new name was free. -/
theorem fileExists_false_of_linkFile_ok (fs : FS) (p oldN newN : String)
    (h : (linkFile fs p oldN newN).2 = none) :
    fileExists fs p newN = false := by
  unfold linkFile at h
  cases hf : findBucket fs p with
  | none =>
    rw [hf] at h
    simp at h
  | some b =>
    rw [hf] at h
    by_cases hex : fileExistsB b newN
    · simp [hex] at h
    · unfold fileExists
      rw [hf]
      simpa using hex

theorem fileExists_mapBucket_ne_dir (fs : FS) (p₀ p n : String) (g : Bucket → Bucket)
    (hname : ∀ b, (g b).name = b.name) (hp : p ≠ p₀) :
    fileExists (mapBucket fs p₀ g) p n = fileExists fs p n := by
  unfold fileExists
  rw [findBucket_mapBucket fs p₀ p g hname]
  cases hf : findBucket fs p with
  | none => rfl
  | some b =>
    have hf2 : fs.buckets.find? (fun x => x.name == p) = some b := hf
    have hb0 := List.find?_some hf2
    have hbe : b.name = p := by simpa using hb0
    simp [hbe, hp]

/-- `linkFile` changes no lookup other than the new name in its target
directory. -/
theorem fileExists_linkFile_other (fs : FS) (p₀ oldN newN p n : String)
    (h : ¬(p = p₀ ∧ n = newN)) :
    fileExists (linkFile fs p₀ oldN newN).1 p n = fileExists fs p n := by
  by_cases hn : n = newN
  · have hp : p ≠ p₀ := fun hpp => h ⟨hpp, hn⟩
    unfold linkFile
    cases hf : findBucket fs p₀ with
    | none => rfl
    | some b =>
      by_cases hex : fileExistsB b newN
      · simp [hex]
      · simp only [hex, Bool.false_eq_true, if_false]
        cases hold : findFileB b oldN with
        | none => rfl
        | some f =>
          exact fileExists_mapBucket_ne_dir fs p₀ p n _ (fun b0 => rfl) hp
  · exact fileExists_linkFile_ne fs p₀ oldN newN p n (fun he => hn he.symm)

/-- **C3**: `Produce` is all-or-nothing for visibility.  If any phase-1
step or the publish link fails, an error is returned and the set of
visible entries (files matching the entry pattern, under any directory) is
unchanged.  If `Produce` succeeds, exactly one new entry is visible: the
freshly generated name in the chosen bucket, previously absent, now
present, with every other entry lookup unchanged. -/
theorem produce_all_or_nothing (q : Dirq) (flt : ProduceFaults) (clk : Clock) (fs : FS)
    (data : List Nat)
    (hsec : clk.entSec ≤ 4294967295) (hnan : clk.entNanos < 1000000000) :
    (∀ fs' e, Produce q flt clk fs data = (fs', some e) → e ≠ Err.unlinkFail →
      ∀ p n, matchFileRegex n = true → fileExists fs' p n = fileExists fs p n) ∧
    (∀ fs', Produce q flt clk fs data = (fs', none) →
      matchFileRegex (generateName clk.entSec clk.entNanos clk.entRnd) = true ∧
      fileExists fs (generateDirName clk.dirSec)
        (generateName clk.entSec clk.entNanos clk.entRnd) = false ∧
      fileExists fs' (generateDirName clk.dirSec)
        (generateName clk.entSec clk.entNanos clk.entRnd) = true ∧
      (∀ p n, matchFileRegex n = true →
        ¬(p = generateDirName clk.dirSec ∧
            n = generateName clk.entSec clk.entNanos clk.entRnd) →
        fileExists fs' p n = fileExists fs p n)) := by
  have hs8 : clk.entSec < 16 ^ 8 := by norm_num; omega
  have hename : matchFileRegex (generateName clk.entSec clk.entNanos clk.entRnd) = true :=
    generateName_matches clk.entRnd hs8 hnan
  set parent := generateDirName clk.dirSec with hparent
  set tmpn := generateName clk.tmpSec clk.tmpNanos clk.tmpRnd ++ tempSuffix with htmpn
  set ename := generateName clk.entSec clk.entNanos clk.entRnd with hename2
  have hnetmp : ename ≠ tmpn := generateName_ne_temp clk.entSec clk.entNanos clk.entRnd _
  set fs3 := writeFile (createFile (ensureDir fs parent) parent ⟨tmpn, [], clk.now⟩)
      parent tmpn data clk.now with hfs3
  have hpres3 : ∀ p n, matchFileRegex n = true → fileExists fs3 p n = fileExists fs p n := by
    intro p n hn
    have hntmp : tmpn ≠ n :=
      Ne.symm (entry_ne_temp (generateName clk.tmpSec clk.tmpNanos clk.tmpRnd) hn)
    rw [hfs3, fileExists_writeFile,
      fileExists_createFile_ne (ensureDir fs parent) parent p n ⟨tmpn, [], clk.now⟩ hntmp,
      fileExists_ensureDir]
  constructor
  · intro fs' e hP hne p n hn
    have hntmp : tmpn ≠ n :=
      Ne.symm (entry_ne_temp (generateName clk.tmpSec clk.tmpNanos clk.tmpRnd) hn)
    unfold Produce addData addPath at hP
    by_cases h1 : flt.mkdirFail
    · simp [h1] at hP
      rw [← hP.1]
    · by_cases h2 : flt.openFail
      · simp [h1, h2] at hP
        rw [← hP.1, fileExists_ensureDir]
      · by_cases h3 : flt.writeFail
        · simp [h1, h2, h3] at hP
          rw [← hP.1, fileExists_writeFile,
            fileExists_createFile_ne (ensureDir fs parent) parent p n ⟨tmpn, [], clk.now⟩ hntmp,
            fileExists_ensureDir]
        · by_cases h4 : flt.closeFail
          · simp [h1, h2, h3, h4] at hP
            rw [← hP.1]
            exact hpres3 p n hn
          · by_cases h5 : flt.linkFail
            · simp [h1, h2, h3, h4, h5] at hP
              rw [← hP.1]
              exact hpres3 p n hn
            · simp only [h1, h2, h3, h4, h5, Bool.false_eq_true, if_false] at hP
              cases hlf : linkFile fs3 parent tmpn ename with
              | mk fs1 oe =>
                rw [hlf] at hP
                cases oe with
                | some e2 =>
                  simp only [Prod.mk.injEq, Option.some.injEq] at hP
                  have hfs1 : fs1 = fs3 := by
                    have := linkFile_fst_of_err fs3 parent tmpn ename e2 (by rw [hlf])
                    rw [hlf] at this
                    exact this
                  rw [← hP.1, hfs1]
                  exact hpres3 p n hn
                | none =>
                  by_cases h6 : flt.unlinkFail
                  · simp only [h6, if_true, Prod.mk.injEq, Option.some.injEq] at hP
                    exact absurd hP.2 (fun hh => hne hh.symm)
                  · simp [h6] at hP
  · intro fs' hP
    unfold Produce addData addPath at hP
    by_cases h1 : flt.mkdirFail
    · simp [h1] at hP
    · by_cases h2 : flt.openFail
      · simp [h1, h2] at hP
      · by_cases h3 : flt.writeFail
        · simp [h1, h2, h3] at hP
        · by_cases h4 : flt.closeFail
          · simp [h1, h2, h3, h4] at hP
          · by_cases h5 : flt.linkFail
            · simp [h1, h2, h3, h4, h5] at hP
            · simp only [h1, h2, h3, h4, h5, Bool.false_eq_true, if_false] at hP
              cases hlf : linkFile fs3 parent tmpn ename with
              | mk fs1 oe =>
                rw [hlf] at hP
                cases oe with
                | some e2 => simp at hP
                | none =>
                  by_cases h6 : flt.unlinkFail
                  · simp [h6] at hP
                  · simp only [h6, Bool.false_eq_true, if_false, Prod.mk.injEq] at hP
                    have hsnd : (linkFile fs3 parent tmpn ename).2 = none := by rw [hlf]
                    have hfst : (linkFile fs3 parent tmpn ename).1 = fs1 := by rw [hlf]
                    refine ⟨hename, ?_, ?_, ?_⟩
                    · rw [← hpres3 parent ename hename]
                      exact fileExists_false_of_linkFile_ok fs3 parent tmpn ename hsnd
                    · rw [← hP.1,
                        fileExists_removeFile_ne fs1 parent parent tmpn ename hnetmp.symm,
                        ← hfst]
                      exact fileExists_linkFile_self fs3 parent tmpn ename hsnd
                    · intro p n hn hne
                      have hntmp : tmpn ≠ n :=
                        Ne.symm (entry_ne_temp (generateName clk.tmpSec clk.tmpNanos clk.tmpRnd) hn)
                      rw [← hP.1,
                        fileExists_removeFile_ne fs1 parent p tmpn n hntmp,
                        ← hfst,
                        fileExists_linkFile_other fs3 parent tmpn ename p n hne]
                      exact hpres3 p n hn

/-- Witness for C3 at a concrete input: a fault-free `Produce` into an
empty queue publishes exactly the generated entry. -/
theorem produce_all_or_nothing_witness :
    fileExists (⟨[]⟩ : FS) (generateDirName 1) (generateName 2 3 4) = false ∧
    fileExists (⟨[⟨"00000001", [⟨"00000002000004", [9], 100⟩]⟩]⟩ : FS)
      (generateDirName 1) (generateName 2 3 4) = true :=
  have h := (produce_all_or_nothing (New "p") pfOk ⟨1, 5, 6, 7, 2, 3, 4, 100⟩ ⟨[]⟩ [9]
      (by norm_num) (by norm_num)).2
      ⟨[⟨"00000001", [⟨"00000002000004", [9], 100⟩]⟩]⟩ (by decide)
  ⟨h.2.1, h.2.2.1⟩

/-- A fault-free consuming walk over one bucket holding one entry claims
it, reads it, deletes entry and lock, and delivers exactly the payload. -/
theorem consume_single_entry_ok (flt : ConsumeFaults) (bname ename : String)
    (content : List Nat) (mt : Int)
    (hb : matchDirRegex bname = true) (he : matchFileRegex ename = true)
    (ho : flt.openFail ename = false) (hr : flt.readFail ename = false)
    (hm1 : flt.rmFileFail ename = false) (hm2 : flt.rmLockFail ename = false) :
    Consume flt ⟨[⟨bname, [⟨ename, content, mt⟩]⟩]⟩
      = (⟨[⟨bname, []⟩]⟩, [Msg.payload content]) := by
  have hee : (ename == ename) = true := beq_self_eq_true ename
  have hel : (ename == ename ++ lockSuffix) = false :=
    beq_eq_false_iff_ne.mpr (ne_append_lock ename)
  have hle : (ename ++ lockSuffix == ename) = false :=
    beq_eq_false_iff_ne.mpr (Ne.symm (ne_append_lock ename))
  simp [Consume, consumeBuckets, consumeBucketFiles, consumeWalkFunc, lock, remove,
    findFileB, fileExistsB, removeFileB, List.find?_cons, List.filter_cons,
    hb, he, hee, hel, hle, ho, hr, hm1, hm2]

/-- **C1**: round-trip.  For every payload (empty and zero bytes
included), a fault-free `Produce` into a fresh queue succeeds, and one
full `Consume` traversal then yields exactly one message whose bytes equal
the payload bit for bit. -/
theorem roundtrip_produce_consume (q : Dirq) (payload : List Nat) (clk : Clock)
    (hd : clk.dirSec ≤ 4294967295) (hs : clk.entSec ≤ 4294967295)
    (hn : clk.entNanos < 1000000000) :
    (Produce q pfOk clk ⟨[]⟩ payload).2 = none ∧
    (Consume cfOk (Produce q pfOk clk ⟨[]⟩ payload).1).2 = [Msg.payload payload] := by
  have hd8 : clk.dirSec < 16 ^ 8 := by norm_num; omega
  have hs8 : clk.entSec < 16 ^ 8 := by norm_num; omega
  have hename : matchFileRegex (generateName clk.entSec clk.entNanos clk.entRnd) = true :=
    generateName_matches clk.entRnd hs8 hn
  set parent := generateDirName clk.dirSec with hparent
  set tmpn := generateName clk.tmpSec clk.tmpNanos clk.tmpRnd ++ tempSuffix with htmpn
  set ename := generateName clk.entSec clk.entNanos clk.entRnd with hename2
  have hnetmp : ename ≠ tmpn := generateName_ne_temp clk.entSec clk.entNanos clk.entRnd _
  have htne : (tmpn == ename) = false := beq_eq_false_iff_ne.mpr (Ne.symm hnetmp)
  have hten : (ename == tmpn) = false := beq_eq_false_iff_ne.mpr hnetmp
  have hP : Produce q pfOk clk ⟨[]⟩ payload
      = (⟨[⟨parent, [⟨ename, payload, clk.now⟩]⟩]⟩, none) := by
    simp [Produce, addData, addPath, pfOk, ensureDir, bucketExists, findBucket,
      createFile, writeFile, linkFile, removeFile, mapBucket, fileExistsB, findFileB,
      removeFileB, List.find?_cons, List.filter_cons, htne, hten]
  rw [hP]
  refine ⟨rfl, ?_⟩
  have hC := consume_single_entry_ok cfOk parent ename payload clk.now
    (generateDirName_matches hd8) hename rfl rfl rfl rfl
  show (Consume cfOk ⟨[⟨parent, [⟨ename, payload, clk.now⟩]⟩]⟩).2 = [Msg.payload payload]
  rw [hC]

/-- Witness for C1 at a concrete clock and a payload holding a zero
byte. -/
theorem roundtrip_produce_consume_witness :
    (Produce (New "p") pfOk ⟨1, 5, 6, 7, 2, 3, 4, 100⟩ ⟨[]⟩ [0]).2 = none ∧
    (Consume cfOk (Produce (New "p") pfOk ⟨1, 5, 6, 7, 2, 3, 4, 100⟩ ⟨[]⟩ [0]).1).2
      = [Msg.payload [0]] :=
  roundtrip_produce_consume (New "p") [0] ⟨1, 5, 6, 7, 2, 3, 4, 100⟩
    (by norm_num) (by norm_num) (by norm_num)

end GoDirq
